import Mathlib

/-!
Shallow embedding of `draw_graph.py`, of the demo script, and of `tests.py`
from the `stage_graphes` repository.

Python float arithmetic is modelled by real arithmetic.  A call to
`draw_line` is modelled as a pure function from its arguments to the list of
drawing primitives it emits (`pygame.draw.line`, `pygame.draw.polygon`,
`surface.blit`) together with a flag recording whether the call completed
without raising an exception.  The external calls `FONT.render` and
`str(label)` are the only operations of the function that may raise; whether
they succeed is part of the input (`renderOk`, `LabelVal.strResult`).
-/

namespace DrawGraph

/-- RGB color triple, as the `(r, g, b)` tuples used by the code. -/
structure Color where
  r : ℤ
  g : ℤ
  b : ℤ
deriving DecidableEq

/-- Embedding of the `ArrowType` enumeration of `draw_graph.py`. -/
inductive ArrowType where
  | NONE
  | SINGLE
  | DOUBLE
deriving DecidableEq

/-- Embedding of `math.hypot`. -/
noncomputable def hypot (x y : ℝ) : ℝ := Real.sqrt (x ^ 2 + y ^ 2)

/-- Embedding of `math.atan2 y x` as the argument of the complex number `x + y i`. -/
noncomputable def atan2 (y x : ℝ) : ℝ := Complex.arg ⟨x, y⟩

/-- Python `int()` truncation of a real number toward zero. -/
noncomputable def truncInt (r : ℝ) : ℤ := if 0 ≤ r then ⌊r⌋ else ⌈r⌉

/-- The label argument of `draw_line`.  In Python it can be any object:
`truthy` is its truth value (used by `if label and FONT:`), and `strResult`
is the outcome of `str(label)` (`none` when `__str__` raises, which is the
case the `try/except` block of the code guards against). -/
structure LabelVal where
  truthy : Bool
  strResult : Option String

/-- The arguments of one `draw_line` call.  `font` records whether the
`FONT` argument is a font object (`true`) or `None` (`false`); `renderOk`
records whether the external `FONT.render` call succeeds. -/
structure Args where
  font : Bool
  color : Color
  start_pos : ℝ × ℝ
  end_pos : ℝ × ℝ
  thickness : ℝ
  arrow_type : ArrowType
  arrow_size : ℝ
  offset_start : ℝ
  offset_end : ℝ
  label : Option LabelVal
  label_offset_x : ℤ
  label_offset_y : ℤ
  renderOk : Bool

/-- One emitted drawing primitive. -/
inductive DrawCall where
  | line (color : Color) (p q : ℝ × ℝ) (thickness : ℝ)
  | polygon (color : Color) (points : List (ℝ × ℝ))
  | circle (color : Color) (center : ℝ × ℝ) (radius : ℝ)
  | blit (text : String) (center : ℤ × ℤ)

/-- Embedding of `dx = end_pos[0] - start_pos[0]`. -/
def dxOf (a : Args) : ℝ := a.end_pos.1 - a.start_pos.1

/-- Embedding of `dy = end_pos[1] - start_pos[1]`. -/
def dyOf (a : Args) : ℝ := a.end_pos.2 - a.start_pos.2

/-- Embedding of `length = math.hypot(dx, dy)`. -/
noncomputable def lengthOf (a : Args) : ℝ := hypot (dxOf a) (dyOf a)

/-- Embedding of `unit_vx = dx / length`. -/
noncomputable def unitVx (a : Args) : ℝ := dxOf a / lengthOf a

/-- Embedding of `unit_vy = dy / length`. -/
noncomputable def unitVy (a : Args) : ℝ := dyOf a / lengthOf a

/-- Embedding of `final_point_end`. -/
noncomputable def finalPointEnd (a : Args) : ℝ × ℝ :=
  (a.end_pos.1 - unitVx a * a.offset_end, a.end_pos.2 - unitVy a * a.offset_end)

/-- Embedding of `final_point_start`. -/
noncomputable def finalPointStart (a : Args) : ℝ × ℝ :=
  (a.start_pos.1 + unitVx a * a.offset_start, a.start_pos.2 + unitVy a * a.offset_start)

/-- Embedding of `offset_line_end` (incremented by `arrow_size*0.8` when an
arrow head sits on the end point). -/
def offsetLineEnd (a : Args) : ℝ :=
  a.offset_end +
    (if a.arrow_type = ArrowType.SINGLE ∨ a.arrow_type = ArrowType.DOUBLE then
      a.arrow_size * 0.8 else 0)

/-- Embedding of `offset_line_start` (incremented by `arrow_size*0.8` only in
double-arrow mode). -/
def offsetLineStart (a : Args) : ℝ :=
  a.offset_start +
    (if a.arrow_type = ArrowType.DOUBLE then a.arrow_size * 0.8 else 0)

/-- Embedding of `line_start`, the first stem endpoint. -/
noncomputable def lineStart (a : Args) : ℝ × ℝ :=
  (a.start_pos.1 + unitVx a * offsetLineStart a,
   a.start_pos.2 + unitVy a * offsetLineStart a)

/-- Embedding of `line_end`, the second stem endpoint. -/
noncomputable def lineEnd (a : Args) : ℝ × ℝ :=
  (a.end_pos.1 - unitVx a * offsetLineEnd a,
   a.end_pos.2 - unitVy a * offsetLineEnd a)

/-- Embedding of `new_length`, the stem length checked against `thickness`. -/
noncomputable def newLength (a : Args) : ℝ :=
  hypot ((lineEnd a).1 - (lineStart a).1) ((lineEnd a).2 - (lineStart a).2)

/-- Embedding of `angle = math.atan2(unit_vy, unit_vx)`. -/
noncomputable def angleOf (a : Args) : ℝ := atan2 (unitVy a) (unitVx a)

/-- First base vertex of an arrow head (`point1` in `draw_arrow_head`). -/
noncomputable def arrowHeadP1 (pos : ℝ × ℝ) (angle_rad size : ℝ) : ℝ × ℝ :=
  (pos.1 - size * Real.cos (angle_rad - Real.pi / 6),
   pos.2 - size * Real.sin (angle_rad - Real.pi / 6))

/-- Second base vertex of an arrow head (`point2` in `draw_arrow_head`). -/
noncomputable def arrowHeadP2 (pos : ℝ × ℝ) (angle_rad size : ℝ) : ℝ × ℝ :=
  (pos.1 - size * Real.cos (angle_rad + Real.pi / 6),
   pos.2 - size * Real.sin (angle_rad + Real.pi / 6))

/-- The vertex list `[pos, point1, point2]` passed to `pygame.draw.polygon`
by `draw_arrow_head`. -/
noncomputable def arrowHeadPoints (pos : ℝ × ℝ) (angle_rad size : ℝ) : List (ℝ × ℝ) :=
  [pos, arrowHeadP1 pos angle_rad size, arrowHeadP2 pos angle_rad size]

/-- The arrow-head polygon calls emitted in step 5 of `draw_line`. -/
noncomputable def headCalls (a : Args) : List DrawCall :=
  (if a.arrow_type = ArrowType.SINGLE ∨ a.arrow_type = ArrowType.DOUBLE then
    [DrawCall.polygon a.color (arrowHeadPoints (finalPointEnd a) (angleOf a) a.arrow_size)]
  else []) ++
  (if a.arrow_type = ArrowType.DOUBLE then
    [DrawCall.polygon a.color
      (arrowHeadPoints (finalPointStart a) (angleOf a + Real.pi) a.arrow_size)]
  else [])

/-- The string actually rendered: `str(label)`, or the placeholder `"?"`
when the conversion raises (the `except` branch). -/
def labelStr (lv : LabelVal) : String :=
  match lv.strResult with
  | some s => s
  | none => "?"

/-- The center assigned to `text_rect.center`:
`(int(center_x) + label_offset_x, int(center_y) + label_offset_y)` where
`(center_x, center_y)` is the midpoint of the stem. -/
noncomputable def labelCenter (a : Args) : ℤ × ℤ :=
  (truncInt (((lineStart a).1 + (lineEnd a).1) / 2) + a.label_offset_x,
   truncInt (((lineStart a).2 + (lineEnd a).2) / 2) + a.label_offset_y)

/-- Step 6 of `draw_line` (label drawing): the blit calls it emits and
whether it completes without raising.  The `try/except` protects only the
`str(label)` conversion; a failing `FONT.render` raises out of the call. -/
noncomputable def labelResult (a : Args) : List DrawCall × Bool :=
  match a.label with
  | none => ([], true)
  | some lv =>
    if lv.truthy && a.font then
      if a.renderOk then
        ([DrawCall.blit (labelStr lv) (labelCenter a)], true)
      else ([], false)
    else ([], true)

/-- Embedding of `draw_line`: the list of drawing calls it makes, paired
with `true` when the call returns normally and `false` when it raises. -/
noncomputable def draw_line (a : Args) : List DrawCall × Bool :=
  if lengthOf a = 0 then ([], true)
  else if newLength a < a.thickness then ([], true)
  else
    (DrawCall.line a.color (lineStart a) (lineEnd a) a.thickness ::
      (headCalls a ++ (labelResult a).1),
     (labelResult a).2)

/-- Euclidean distance between two points, via `hypot` as the code computes
lengths. -/
noncomputable def dist2 (p q : ℝ × ℝ) : ℝ := hypot (p.1 - q.1) (p.2 - q.2)

/-- The point `p` lies strictly between `s` and `e` on the segment joining
them. -/
def strictlyBetween (s e p : ℝ × ℝ) : Prop :=
  ∃ t : ℝ, 0 < t ∧ t < 1 ∧
    p = (s.1 + t * (e.1 - s.1), s.2 + t * (e.2 - s.2))

/-- Embedding of `carre` from `tests.py`. -/
def carre (x : ℤ) : ℤ := x * x

/-- Demo constant `COULEUR_CERCLE_CENTRE = (153, 204, 255)`. -/
def COULEUR_CERCLE_CENTRE : Color := ⟨153, 204, 255⟩

/-- Demo constant `COULEUR_CERCLE_EXTERIEUR = (255, 102, 51)`. -/
def COULEUR_CERCLE_EXTERIEUR : Color := ⟨255, 102, 51⟩

/-- Demo constant `COULEUR_LIGNES = (0, 204, 204)`. -/
def COULEUR_LIGNES : Color := ⟨0, 204, 204⟩

/-- Modelled from the spec: the demo calls `dg.draw_circle`, which is not
among the source files.  Per the spec a node is "a graph vertex, rendered as
a circle (in the demo only)"; the demo passes an exterior color, a center
color, a position and the radius `CIRCLE_SIZE`, so the model emits circle
draw calls at that position and never raises. -/
def draw_circle (exterior center_color : Color) (pos : ℝ × ℝ) (radius : ℝ) :
    List DrawCall :=
  [DrawCall.circle exterior pos radius, DrawCall.circle center_color pos radius]

/-- Sequencing of two drawing steps: the second runs only when the first has
not raised, and its calls are appended. -/
def andThen (x y : List DrawCall × Bool) : List DrawCall × Bool :=
  if x.2 then (x.1 ++ y.1, y.2) else x

/-- Demo node position `pos1 = (w // 4, h // 4)`. -/
def demoPos1 (w h : ℕ) : ℝ × ℝ := ((w / 4 : ℕ), (h / 4 : ℕ))

/-- Demo node position `pos2 = (w // 2, 1.5 * h // 2)`; for a natural `h`,
`1.5 * h // 2` is the floor of `3 * h / 4`. -/
def demoPos2 (w h : ℕ) : ℝ × ℝ := ((w / 2 : ℕ), ((3 * h) / 4 : ℕ))

/-- Demo node position `pos3 = (3 * w // 4, h // 4)`. -/
def demoPos3 (w h : ℕ) : ℝ × ℝ := (((3 * w) / 4 : ℕ), (h / 4 : ℕ))

/-- The arguments of one demo edge: `dg.draw_line(screen, FONT,
COULEUR_LIGNES, p, q, label=lab, offset_end=CIRCLE_SIZE,
offset_start=CIRCLE_SIZE)` with the remaining parameters at their defaults.
The label is a nonempty Python string, so it is truthy and `str` succeeds;
the demo's font is initialized, so rendering succeeds. -/
def demoEdgeArgs (p q : ℝ × ℝ) (lab : String) : Args :=
  { font := true
    color := COULEUR_LIGNES
    start_pos := p
    end_pos := q
    thickness := 6
    arrow_type := ArrowType.SINGLE
    arrow_size := 18
    offset_start := 15
    offset_end := 15
    label := some ⟨true, some lab⟩
    label_offset_x := 0
    label_offset_y := 0
    renderOk := true }

/-- The circle calls of one demo frame: three nodes of radius
`CIRCLE_SIZE = 15`. -/
def demoCircles (w h : ℕ) : List DrawCall :=
  draw_circle COULEUR_CERCLE_EXTERIEUR COULEUR_CERCLE_CENTRE (demoPos1 w h) 15 ++
  draw_circle COULEUR_CERCLE_EXTERIEUR COULEUR_CERCLE_CENTRE (demoPos2 w h) 15 ++
  draw_circle COULEUR_CERCLE_EXTERIEUR COULEUR_CERCLE_CENTRE (demoPos3 w h) 15

/-- One iteration of the demo loop body on a window of size `w × h`: the
three node circles, then the three edges `1-2`, `2-3`, `3-1`. -/
noncomputable def demoFrame (w h : ℕ) : List DrawCall × Bool :=
  andThen (demoCircles w h, true)
    (andThen (draw_line (demoEdgeArgs (demoPos1 w h) (demoPos2 w h) "1-2"))
      (andThen (draw_line (demoEdgeArgs (demoPos2 w h) (demoPos3 w h) "2-3"))
        (draw_line (demoEdgeArgs (demoPos3 w h) (demoPos1 w h) "3-1"))))

/-- The call list of one successfully drawn demo edge: its stem line, its
arrow heads, and its label blit. -/
noncomputable def demoEdgeCalls (p q : ℝ × ℝ) (lab : String) : List DrawCall :=
  DrawCall.line COULEUR_LIGNES (lineStart (demoEdgeArgs p q lab))
      (lineEnd (demoEdgeArgs p q lab)) 6 ::
    (headCalls (demoEdgeArgs p q lab) ++
      [DrawCall.blit lab (labelCenter (demoEdgeArgs p q lab))])

/-- Whether a drawing call is a stem line (`pygame.draw.line`). -/
def isLineCall : DrawCall → Bool
  | DrawCall.line _ _ _ _ => true
  | _ => false

/-- Number of stem lines among the emitted calls: one per drawn edge. -/
def countLines (l : List DrawCall) : ℕ := (l.filter isLineCall).length

/-- Some circle is drawn centered at `p`. -/
def hasCircleAt (l : List DrawCall) (p : ℝ × ℝ) : Prop :=
  ∃ c r, DrawCall.circle c p r ∈ l

/-- Concrete call: a horizontal edge from the origin to `(10, 0)` with both
offsets equal to `100`, no arrow heads, default thickness and arrow size. -/
def c1Args : Args :=
  ⟨true, ⟨0, 0, 0⟩, (0, 0), (10, 0), 6, ArrowType.NONE, 18, 100, 100, none, 0, 0, true⟩

/-- Concrete call: a horizontal edge from the origin to `(100, 0)` with both
offsets equal to `10`, a single arrow head of size `10`. -/
def c1wArgs : Args :=
  ⟨true, ⟨0, 0, 0⟩, (0, 0), (100, 0), 6, ArrowType.SINGLE, 10, 10, 10, none, 0, 0, true⟩

/-- Concrete call: a horizontal edge from the origin to `(5, 0)` with no
offsets, no arrow heads, thickness `1`, and the label string `"L"`. -/
def c2Args : Args :=
  ⟨true, ⟨0, 0, 0⟩, (0, 0), (5, 0), 1, ArrowType.NONE, 18, 0, 0,
   some ⟨true, some "L"⟩, 0, 0, true⟩

/-- Concrete call: a degenerate edge whose two endpoints are both `(1, 2)`. -/
def c3wArgs : Args :=
  ⟨true, ⟨0, 0, 0⟩, (1, 2), (1, 2), 6, ArrowType.SINGLE, 18, 0, 0, none, 0, 0, true⟩

/-- Concrete call: a horizontal edge from the origin to `(2, 0)` with
thickness `20`, larger than the stem. -/
def c4wArgs : Args :=
  ⟨true, ⟨0, 0, 0⟩, (0, 0), (2, 0), 20, ArrowType.NONE, 18, 0, 0, none, 0, 0, true⟩

/-- Concrete call: a drawable labelled edge whose `FONT.render` call fails. -/
def c5Args : Args :=
  ⟨true, ⟨0, 0, 0⟩, (0, 0), (100, 0), 6, ArrowType.NONE, 18, 0, 0,
   some ⟨true, some "L"⟩, 0, 0, false⟩

/-- Concrete call: a drawable labelled edge whose label's `str()` conversion
raises, while rendering itself succeeds. -/
def c5wArgs : Args :=
  ⟨true, ⟨0, 0, 0⟩, (0, 0), (100, 0), 6, ArrowType.NONE, 18, 0, 0,
   some ⟨true, none⟩, 0, 0, true⟩

/-- Concrete call: a horizontal double-arrow edge from the origin to
`(100, 0)` with offsets `1` and arrow size `10`. -/
def c6wArgs : Args :=
  ⟨true, ⟨0, 0, 0⟩, (0, 0), (100, 0), 6, ArrowType.DOUBLE, 10, 1, 1, none, 0, 0, true⟩

/-- Concrete call: a horizontal edge from the origin to `(10, 0)` with no
offsets and no arrow heads. -/
def c8wArgs : Args :=
  ⟨true, ⟨0, 0, 0⟩, (0, 0), (10, 0), 6, ArrowType.NONE, 18, 0, 0, none, 0, 0, true⟩

/-- Concrete call: a horizontal single-arrow edge from the origin to
`(100, 0)` with no offsets and arrow size `10`. -/
def c9wArgs : Args :=
  ⟨true, ⟨0, 0, 0⟩, (0, 0), (100, 0), 6, ArrowType.SINGLE, 10, 0, 0, none, 0, 0, true⟩

lemma hypot_nonneg (x y : ℝ) : 0 ≤ hypot x y := Real.sqrt_nonneg _

lemma hypot_eq_zero_iff (x y : ℝ) : hypot x y = 0 ↔ x = 0 ∧ y = 0 := by
  unfold hypot
  rw [Real.sqrt_eq_zero (by positivity)]
  constructor
  · intro h
    have hx : x ^ 2 = 0 := le_antisymm (by nlinarith [sq_nonneg y]) (sq_nonneg x)
    have hy : y ^ 2 = 0 := le_antisymm (by nlinarith [sq_nonneg x]) (sq_nonneg y)
    exact ⟨pow_eq_zero_iff two_ne_zero |>.1 hx, pow_eq_zero_iff two_ne_zero |>.1 hy⟩
  · rintro ⟨rfl, rfl⟩
    norm_num

lemma hypot_x_zero (x : ℝ) : hypot x 0 = |x| := by
  unfold hypot
  rw [show x ^ 2 + 0 ^ 2 = x ^ 2 by ring, Real.sqrt_sq_eq_abs]

lemma hypot_x_zero_of_nonneg {x : ℝ} (h : 0 ≤ x) : hypot x 0 = x := by
  rw [hypot_x_zero, abs_of_nonneg h]

lemma hypot_mul (x y c : ℝ) : hypot (x * c) (y * c) = hypot x y * |c| := by
  unfold hypot
  rw [show (x * c) ^ 2 + (y * c) ^ 2 = (x ^ 2 + y ^ 2) * c ^ 2 by ring,
    Real.sqrt_mul (by positivity), Real.sqrt_sq_eq_abs]

lemma lengthOf_pos {a : Args} (h : lengthOf a ≠ 0) : 0 < lengthOf a :=
  lt_of_le_of_ne (hypot_nonneg _ _) (Ne.symm h)

lemma lengthOf_ne_zero_iff (a : Args) : lengthOf a ≠ 0 ↔ a.start_pos ≠ a.end_pos := by
  unfold lengthOf dxOf dyOf
  rw [not_iff_not, hypot_eq_zero_iff, Prod.ext_iff]
  constructor
  · rintro ⟨h1, h2⟩
    constructor <;> linarith
  · rintro ⟨h1, h2⟩
    constructor <;> linarith

lemma sq_hypot (x y : ℝ) : hypot x y ^ 2 = x ^ 2 + y ^ 2 :=
  Real.sq_sqrt (by positivity)

lemma unit_sq {a : Args} (h : lengthOf a ≠ 0) :
    unitVx a ^ 2 + unitVy a ^ 2 = 1 := by
  unfold unitVx unitVy
  rw [div_pow, div_pow, div_add_div_same, ← sq_hypot (dxOf a) (dyOf a)]
  exact div_self (pow_ne_zero 2 h)

lemma hypot_unit {a : Args} (h : lengthOf a ≠ 0) :
    hypot (unitVx a) (unitVy a) = 1 := by
  unfold hypot
  rw [unit_sq h, Real.sqrt_one]

lemma unitVx_mul_length {a : Args} (h : lengthOf a ≠ 0) :
    unitVx a * lengthOf a = dxOf a := div_mul_cancel₀ _ h

lemma unitVy_mul_length {a : Args} (h : lengthOf a ≠ 0) :
    unitVy a * lengthOf a = dyOf a := div_mul_cancel₀ _ h

lemma lineEnd_sub_lineStart_fst {a : Args} (h : lengthOf a ≠ 0) :
    (lineEnd a).1 - (lineStart a).1 =
      unitVx a * (lengthOf a - (offsetLineStart a + offsetLineEnd a)) := by
  have h1 : a.end_pos.1 - a.start_pos.1 = unitVx a * lengthOf a := by
    rw [unitVx_mul_length h]; rfl
  unfold lineEnd lineStart
  calc a.end_pos.1 - unitVx a * offsetLineEnd a -
        (a.start_pos.1 + unitVx a * offsetLineStart a)
      = (a.end_pos.1 - a.start_pos.1) -
          unitVx a * (offsetLineStart a + offsetLineEnd a) := by ring
    _ = unitVx a * lengthOf a -
          unitVx a * (offsetLineStart a + offsetLineEnd a) := by rw [h1]
    _ = unitVx a * (lengthOf a - (offsetLineStart a + offsetLineEnd a)) := by ring

lemma lineEnd_sub_lineStart_snd {a : Args} (h : lengthOf a ≠ 0) :
    (lineEnd a).2 - (lineStart a).2 =
      unitVy a * (lengthOf a - (offsetLineStart a + offsetLineEnd a)) := by
  have h1 : a.end_pos.2 - a.start_pos.2 = unitVy a * lengthOf a := by
    rw [unitVy_mul_length h]; rfl
  unfold lineEnd lineStart
  calc a.end_pos.2 - unitVy a * offsetLineEnd a -
        (a.start_pos.2 + unitVy a * offsetLineStart a)
      = (a.end_pos.2 - a.start_pos.2) -
          unitVy a * (offsetLineStart a + offsetLineEnd a) := by ring
    _ = unitVy a * lengthOf a -
          unitVy a * (offsetLineStart a + offsetLineEnd a) := by rw [h1]
    _ = unitVy a * (lengthOf a - (offsetLineStart a + offsetLineEnd a)) := by ring

lemma newLength_eq_abs {a : Args} (h : lengthOf a ≠ 0) :
    newLength a = |lengthOf a - (offsetLineStart a + offsetLineEnd a)| := by
  unfold newLength
  rw [lineEnd_sub_lineStart_fst h, lineEnd_sub_lineStart_snd h,
    hypot_mul, hypot_unit h, one_mul]

lemma draw_line_skip {a : Args} (h1 : lengthOf a ≠ 0)
    (h2 : newLength a < a.thickness) : draw_line a = ([], true) := by
  rw [draw_line, if_neg h1, if_pos h2]

lemma draw_line_draws {a : Args} (h1 : lengthOf a ≠ 0)
    (h2 : ¬ newLength a < a.thickness) :
    draw_line a =
      (DrawCall.line a.color (lineStart a) (lineEnd a) a.thickness ::
        (headCalls a ++ (labelResult a).1), (labelResult a).2) := by
  rw [draw_line, if_neg h1, if_neg h2]

lemma labelResult_none {a : Args} (h : a.label = none) :
    labelResult a = ([], true) := by
  unfold labelResult
  rw [h]

lemma labelResult_ok {a : Args} (lv : LabelVal) (h : a.label = some lv)
    (ht : lv.truthy = true) (hf : a.font = true) (hr : a.renderOk = true) :
    labelResult a = ([DrawCall.blit (labelStr lv) (labelCenter a)], true) := by
  unfold labelResult
  rw [h]
  simp [ht, hf, hr]

lemma labelResult_render_fail {a : Args} {lv : LabelVal} (h : a.label = some lv)
    (ht : lv.truthy = true) (hf : a.font = true) (hr : a.renderOk = false) :
    labelResult a = ([], false) := by
  unfold labelResult
  rw [h]
  simp [ht, hf, hr]

lemma countLines_append (l1 l2 : List DrawCall) :
    countLines (l1 ++ l2) = countLines l1 + countLines l2 := by
  simp [countLines, List.filter_append]

lemma countLines_headCalls (a : Args) : countLines (headCalls a) = 0 := by
  unfold headCalls
  split <;> split <;> simp [countLines, isLineCall]

lemma countLines_labelResult (a : Args) : countLines (labelResult a).1 = 0 := by
  unfold labelResult
  rcases a.label with _ | lv
  · simp [countLines]
  · by_cases h : (lv.truthy && a.font) = true
    · by_cases hr : a.renderOk = true
      · simp [h, hr, countLines, isLineCall]
      · simp [h, hr, countLines]
    · simp [h, countLines]

lemma horiz_eval {a : Args} {d : ℝ} (h1 : a.end_pos.1 = a.start_pos.1 + d)
    (h2 : a.end_pos.2 = a.start_pos.2) (hd : 0 < d) :
    lengthOf a = d ∧ unitVx a = 1 ∧ unitVy a = 0 := by
  have hdx : dxOf a = d := by
    unfold dxOf
    rw [h1]
    ring
  have hdy : dyOf a = 0 := by
    unfold dyOf
    rw [h2, sub_self]
  have hL : lengthOf a = d := by
    unfold lengthOf
    rw [hdx, hdy, hypot_x_zero_of_nonneg hd.le]
  refine ⟨hL, ?_, ?_⟩
  · unfold unitVx
    rw [hdx, hL, div_self hd.ne']
  · unfold unitVy
    rw [hdy, zero_div]

/-- C10: for every integer `x`, the function `carre` returns `x * x`. -/
theorem carre_eq_mul_self (x : ℤ) : carre x = x * x := rfl

/-- C3: for every call to `draw_line` in which `start_pos` equals `end_pos`,
the function returns without making any drawing call and without raising. -/
theorem draw_line_zero_segment (a : Args) (h : a.start_pos = a.end_pos) :
    draw_line a = ([], true) := by
  have hL : lengthOf a = 0 := by
    unfold lengthOf dxOf dyOf
    rw [h, sub_self, sub_self]
    simp [hypot]
  rw [draw_line, if_pos hL]

/-- Witness for C3: the degenerate call on the point `(1, 2)` draws nothing
and completes. -/
theorem draw_line_zero_segment_witness : draw_line c3wArgs = ([], true) :=
  draw_line_zero_segment c3wArgs rfl

/-- C4: for every call to `draw_line` with distinct endpoints in which the
stem after offsets is shorter than `thickness`, the function silently skips
the draw: no drawing call is made and no error is raised. -/
theorem draw_line_short_stem (a : Args) (h1 : a.start_pos ≠ a.end_pos)
    (h2 : newLength a < a.thickness) : draw_line a = ([], true) :=
  draw_line_skip ((lengthOf_ne_zero_iff a).2 h1) h2

/-- Witness for C4: a segment of length `2` with thickness `20` is silently
skipped. -/
theorem draw_line_short_stem_witness : draw_line c4wArgs = ([], true) := by
  have hh := horiz_eval (a := c4wArgs) (d := 2)
    (by norm_num [c4wArgs]) (by norm_num [c4wArgs]) (by norm_num)
  have hols : offsetLineStart c4wArgs = 0 := by simp [offsetLineStart, c4wArgs]
  have hole : offsetLineEnd c4wArgs = 0 := by simp [offsetLineEnd, c4wArgs]
  refine draw_line_short_stem c4wArgs (by norm_num [c4wArgs, Prod.ext_iff]) ?_
  rw [newLength_eq_abs (by rw [hh.1]; norm_num), hh.1, hols, hole]
  norm_num [c4wArgs]

/-- C6: for every double-arrow call with distinct endpoints and nonnegative
arrow size, the stem is shortened from both ends by the same amount: the
distance from `final_point_start` to `line_start` and the distance from
`final_point_end` to `line_end` both equal `0.8 * arrow_size`. -/
theorem double_arrow_symmetric_shortening (a : Args)
    (h1 : a.arrow_type = ArrowType.DOUBLE) (h2 : a.start_pos ≠ a.end_pos)
    (h3 : 0 ≤ a.arrow_size) :
    dist2 (finalPointStart a) (lineStart a) = 0.8 * a.arrow_size ∧
    dist2 (finalPointEnd a) (lineEnd a) = 0.8 * a.arrow_size := by
  have hL : lengthOf a ≠ 0 := (lengthOf_ne_zero_iff a).2 h2
  have hc : (0 : ℝ) ≤ a.arrow_size * 0.8 := mul_nonneg h3 (by norm_num)
  constructor
  · unfold dist2 finalPointStart lineStart offsetLineStart
    rw [if_pos h1]
    rw [show a.start_pos.1 + unitVx a * a.offset_start -
          (a.start_pos.1 + unitVx a * (a.offset_start + a.arrow_size * 0.8)) =
        unitVx a * (-(a.arrow_size * 0.8)) by ring]
    rw [show a.start_pos.2 + unitVy a * a.offset_start -
          (a.start_pos.2 + unitVy a * (a.offset_start + a.arrow_size * 0.8)) =
        unitVy a * (-(a.arrow_size * 0.8)) by ring]
    rw [hypot_mul, hypot_unit hL, one_mul, abs_neg, abs_of_nonneg hc]
    ring
  · unfold dist2 finalPointEnd lineEnd offsetLineEnd
    rw [if_pos (Or.inr h1)]
    rw [show a.end_pos.1 - unitVx a * a.offset_end -
          (a.end_pos.1 - unitVx a * (a.offset_end + a.arrow_size * 0.8)) =
        unitVx a * (a.arrow_size * 0.8) by ring]
    rw [show a.end_pos.2 - unitVy a * a.offset_end -
          (a.end_pos.2 - unitVy a * (a.offset_end + a.arrow_size * 0.8)) =
        unitVy a * (a.arrow_size * 0.8) by ring]
    rw [hypot_mul, hypot_unit hL, one_mul, abs_of_nonneg hc]
    ring

/-- Witness for C6: the concrete double-arrow call `c6wArgs` is shortened by
`0.8 * 10` on both sides. -/
theorem double_arrow_symmetric_shortening_witness :
    dist2 (finalPointStart c6wArgs) (lineStart c6wArgs) = 0.8 * c6wArgs.arrow_size ∧
    dist2 (finalPointEnd c6wArgs) (lineEnd c6wArgs) = 0.8 * c6wArgs.arrow_size :=
  double_arrow_symmetric_shortening c6wArgs rfl
    (by norm_num [c6wArgs, Prod.ext_iff]) (by norm_num [c6wArgs])

/-- C8: for every call with no arrow heads, zero offsets, distinct endpoints
at distance at least `thickness`, the offset computation is the identity:
the stem drawn is exactly the segment from `start_pos` to `end_pos`. -/
theorem no_arrow_zero_offsets_identity (a : Args)
    (h1 : a.arrow_type = ArrowType.NONE) (h2 : a.offset_start = 0)
    (h3 : a.offset_end = 0) (h4 : a.start_pos ≠ a.end_pos)
    (h5 : a.thickness ≤ lengthOf a) :
    lineStart a = a.start_pos ∧ lineEnd a = a.end_pos ∧
      DrawCall.line a.color a.start_pos a.end_pos a.thickness ∈ (draw_line a).1 := by
  have hols : offsetLineStart a = 0 := by simp [offsetLineStart, h1, h2]
  have hole : offsetLineEnd a = 0 := by simp [offsetLineEnd, h1, h3]
  have hs : lineStart a = a.start_pos := by simp [lineStart, hols]
  have he : lineEnd a = a.end_pos := by simp [lineEnd, hole]
  have hL : lengthOf a ≠ 0 := (lengthOf_ne_zero_iff a).2 h4
  have hLnn : (0 : ℝ) ≤ lengthOf a := hypot_nonneg _ _
  have hnew : newLength a = lengthOf a := by
    rw [newLength_eq_abs hL, hols, hole, add_zero, sub_zero, abs_of_nonneg hLnn]
  refine ⟨hs, he, ?_⟩
  have hd := draw_line_draws hL (by rw [hnew]; exact not_lt.2 h5)
  rw [hd, hs, he]
  exact List.mem_cons_self _ _

/-- Witness for C8: the plain segment from the origin to `(10, 0)` is drawn
unchanged. -/
theorem no_arrow_zero_offsets_identity_witness :
    lineStart c8wArgs = c8wArgs.start_pos ∧ lineEnd c8wArgs = c8wArgs.end_pos ∧
      DrawCall.line c8wArgs.color c8wArgs.start_pos c8wArgs.end_pos
        c8wArgs.thickness ∈ (draw_line c8wArgs).1 := by
  have hh := horiz_eval (a := c8wArgs) (d := 10)
    (by norm_num [c8wArgs]) (by norm_num [c8wArgs]) (by norm_num)
  exact no_arrow_zero_offsets_identity c8wArgs rfl rfl rfl
    (by norm_num [c8wArgs, Prod.ext_iff]) (by rw [hh.1]; norm_num [c8wArgs])

/-- C1 counterexample: in the call `c1Args` the offsets (`100`) and the arrow
size are positive and the function proceeds to draw (the crossed stem has
length `190 ≥ 6`), yet `line_start = (100, 0)` does not lie strictly between
`(0, 0)` and `(10, 0)`. -/
theorem stem_outside_segment_cex :
    0 < c1Args.offset_start ∧ 0 < c1Args.offset_end ∧ 0 < c1Args.arrow_size ∧
    lengthOf c1Args ≠ 0 ∧ ¬ newLength c1Args < c1Args.thickness ∧
    ¬ strictlyBetween c1Args.start_pos c1Args.end_pos (lineStart c1Args) := by
  have hh := horiz_eval (a := c1Args) (d := 10)
    (by norm_num [c1Args]) (by norm_num [c1Args]) (by norm_num)
  have hols : offsetLineStart c1Args = 100 := by simp [offsetLineStart, c1Args]
  have hole : offsetLineEnd c1Args = 100 := by simp [offsetLineEnd, c1Args]
  have hls : lineStart c1Args = (100, 0) := by
    unfold lineStart
    rw [hh.2.1, hh.2.2, hols]
    norm_num [c1Args]
  refine ⟨by norm_num [c1Args], by norm_num [c1Args], by norm_num [c1Args],
    by rw [hh.1]; norm_num, ?_, ?_⟩
  · rw [newLength_eq_abs (by rw [hh.1]; norm_num), hh.1, hols, hole,
      show (10 : ℝ) - (100 + 100) = -190 by norm_num, abs_neg,
      abs_of_nonneg (by norm_num : (0 : ℝ) ≤ 190)]
    norm_num [c1Args]
  · rw [hls]
    rintro ⟨t, ht0, ht1, hp⟩
    have h1 := congrArg Prod.fst hp
    simp [c1Args] at h1
    linarith

/-- C1 (amended): with positive offsets and arrow size, whenever the total
stem margin `offset_line_start + offset_line_end` is less than the distance
between the endpoints and the function proceeds to draw, both stem endpoints
lie strictly between the original endpoints. -/
theorem stem_endpoints_strictly_between (a : Args)
    (h1 : 0 < a.offset_start) (h2 : 0 < a.offset_end) (h3 : 0 < a.arrow_size)
    (h4 : offsetLineStart a + offsetLineEnd a < lengthOf a)
    (_h5 : ¬ newLength a < a.thickness) :
    strictlyBetween a.start_pos a.end_pos (lineStart a) ∧
    strictlyBetween a.start_pos a.end_pos (lineEnd a) := by
  have harr : (0 : ℝ) ≤ a.arrow_size * 0.8 :=
    mul_nonneg h3.le (by norm_num)
  have hols : 0 < offsetLineStart a := by
    unfold offsetLineStart
    split
    · linarith
    · linarith
  have hole : 0 < offsetLineEnd a := by
    unfold offsetLineEnd
    split
    · linarith
    · linarith
  have hL : 0 < lengthOf a := by linarith
  constructor
  · refine ⟨offsetLineStart a / lengthOf a, div_pos hols hL, ?_, ?_⟩
    · rw [div_lt_one hL]
      linarith
    · unfold lineStart unitVx unitVy dxOf dyOf
      rw [Prod.mk.injEq]
      constructor <;> ring
  · refine ⟨(lengthOf a - offsetLineEnd a) / lengthOf a,
      div_pos (by linarith) hL, ?_, ?_⟩
    · rw [div_lt_one hL]
      linarith
    · unfold lineEnd unitVx unitVy dxOf dyOf
      rw [Prod.mk.injEq]
      constructor <;> (field_simp; ring)

/-- Witness for the amended C1: in the call `c1wArgs` the margins sum to
`28 < 100` and both stem endpoints are strictly inside the segment. -/
theorem stem_endpoints_strictly_between_witness :
    strictlyBetween c1wArgs.start_pos c1wArgs.end_pos (lineStart c1wArgs) ∧
    strictlyBetween c1wArgs.start_pos c1wArgs.end_pos (lineEnd c1wArgs) := by
  have hh := horiz_eval (a := c1wArgs) (d := 100)
    (by norm_num [c1wArgs]) (by norm_num [c1wArgs]) (by norm_num)
  have hols : offsetLineStart c1wArgs = 10 := by simp [offsetLineStart, c1wArgs]
  have hole : offsetLineEnd c1wArgs = 18 := by norm_num [offsetLineEnd, c1wArgs]
  refine stem_endpoints_strictly_between c1wArgs (by norm_num [c1wArgs])
    (by norm_num [c1wArgs]) (by norm_num [c1wArgs]) ?_ ?_
  · rw [hols, hole, hh.1]
    norm_num
  · rw [newLength_eq_abs (by rw [hh.1]; norm_num), hh.1, hols, hole,
      show (100 : ℝ) - (10 + 18) = 72 by norm_num,
      abs_of_nonneg (by norm_num : (0 : ℝ) ≤ 72)]
    norm_num [c1wArgs]

/-- C2 counterexample: in the call `c2Args` the stem runs from `(0, 0)` to
`(5, 0)` and the label is placed, yet its center is the truncated point
`(2, 0)`, not the midpoint-plus-offsets `(2.5, 0)`. -/
theorem label_center_not_midpoint_cex :
    (draw_line c2Args).2 = true ∧
    DrawCall.blit "L" (2, 0) ∈ (draw_line c2Args).1 ∧
    ((2 : ℝ), (0 : ℝ)) ≠
      (((lineStart c2Args).1 + (lineEnd c2Args).1) / 2 + (c2Args.label_offset_x : ℝ),
       ((lineStart c2Args).2 + (lineEnd c2Args).2) / 2 + (c2Args.label_offset_y : ℝ)) := by
  have hh := horiz_eval (a := c2Args) (d := 5)
    (by norm_num [c2Args]) (by norm_num [c2Args]) (by norm_num)
  have hols : offsetLineStart c2Args = 0 := by simp [offsetLineStart, c2Args]
  have hole : offsetLineEnd c2Args = 0 := by simp [offsetLineEnd, c2Args]
  have hls : lineStart c2Args = (0, 0) := by
    unfold lineStart
    rw [hh.2.1, hh.2.2, hols]
    norm_num [c2Args]
  have hle : lineEnd c2Args = (5, 0) := by
    unfold lineEnd
    rw [hh.2.1, hh.2.2, hole]
    norm_num [c2Args]
  have h2 : ¬ newLength c2Args < c2Args.thickness := by
    rw [newLength_eq_abs (by rw [hh.1]; norm_num), hh.1, hols, hole,
      show (5 : ℝ) - (0 + 0) = 5 by norm_num,
      abs_of_nonneg (by norm_num : (0 : ℝ) ≤ 5)]
    norm_num [c2Args]
  have hc1 : truncInt (((lineStart c2Args).1 + (lineEnd c2Args).1) / 2) = 2 := by
    rw [hls, hle]
    show truncInt (((0 : ℝ) + 5) / 2) = 2
    unfold truncInt
    rw [if_pos (by norm_num : (0 : ℝ) ≤ (0 + 5) / 2), Int.floor_eq_iff]
    constructor <;> norm_num
  have hc2 : truncInt (((lineStart c2Args).2 + (lineEnd c2Args).2) / 2) = 0 := by
    rw [hls, hle]
    show truncInt (((0 : ℝ) + 0) / 2) = 0
    unfold truncInt
    rw [if_pos (by norm_num : (0 : ℝ) ≤ (0 + 0) / 2), Int.floor_eq_iff]
    constructor <;> norm_num
  have hcenter : labelCenter c2Args = (2, 0) := by
    unfold labelCenter
    rw [hc1, hc2]
    norm_num [c2Args]
  have hd := draw_line_draws (by rw [hh.1]; norm_num) h2
  have hl : labelResult c2Args =
      ([DrawCall.blit "L" (labelCenter c2Args)], true) :=
    labelResult_ok ⟨true, some "L"⟩ rfl rfl rfl rfl
  refine ⟨?_, ?_, ?_⟩
  · rw [hd, hl]
  · rw [hd, hl, hcenter]
    simp
  · rw [hls, hle]
    intro h
    have h1 := congrArg Prod.fst h
    norm_num [c2Args] at h1

/-- C2 (amended): the label's placed center equals the integer truncation of
each stem-midpoint coordinate, plus the configured offsets. -/
theorem label_center_truncated_midpoint (a : Args) (lv : LabelVal)
    (h1 : lengthOf a ≠ 0) (h2 : ¬ newLength a < a.thickness)
    (h3 : a.label = some lv) (h4 : lv.truthy = true) (h5 : a.font = true)
    (h6 : a.renderOk = true) :
    (draw_line a).2 = true ∧
    DrawCall.blit (labelStr lv)
      (truncInt (((lineStart a).1 + (lineEnd a).1) / 2) + a.label_offset_x,
       truncInt (((lineStart a).2 + (lineEnd a).2) / 2) + a.label_offset_y) ∈
      (draw_line a).1 := by
  have hd := draw_line_draws h1 h2
  have hl := labelResult_ok lv h3 h4 h5 h6
  rw [hd, hl]
  refine ⟨rfl, ?_⟩
  simp [labelCenter]

/-- Witness for the amended C2: applied to the concrete call `c2Args`. -/
theorem label_center_truncated_midpoint_witness :
    (draw_line c2Args).2 = true ∧
    DrawCall.blit (labelStr ⟨true, some "L"⟩)
      (truncInt (((lineStart c2Args).1 + (lineEnd c2Args).1) / 2) +
        c2Args.label_offset_x,
       truncInt (((lineStart c2Args).2 + (lineEnd c2Args).2) / 2) +
        c2Args.label_offset_y) ∈ (draw_line c2Args).1 := by
  have hh := horiz_eval (a := c2Args) (d := 5)
    (by norm_num [c2Args]) (by norm_num [c2Args]) (by norm_num)
  have hols : offsetLineStart c2Args = 0 := by simp [offsetLineStart, c2Args]
  have hole : offsetLineEnd c2Args = 0 := by simp [offsetLineEnd, c2Args]
  refine label_center_truncated_midpoint c2Args ⟨true, some "L"⟩
    (by rw [hh.1]; norm_num) ?_ rfl rfl rfl rfl
  rw [newLength_eq_abs (by rw [hh.1]; norm_num), hh.1, hols, hole,
    show (5 : ℝ) - (0 + 0) = 5 by norm_num,
    abs_of_nonneg (by norm_num : (0 : ℝ) ≤ 5)]
  norm_num [c2Args]

/-- C5 counterexample: in the call `c5Args` the label is truthy, the font is
present and `FONT.render` fails; `draw_line` draws the stem, raises, and no
placeholder is blitted, contradicting the claim that any label-rendering
failure is swallowed. -/
theorem render_failure_propagates_cex :
    draw_line c5Args =
      ([DrawCall.line c5Args.color (0, 0) (100, 0) c5Args.thickness], false) := by
  have hh := horiz_eval (a := c5Args) (d := 100)
    (by norm_num [c5Args]) (by norm_num [c5Args]) (by norm_num)
  have hols : offsetLineStart c5Args = 0 := by simp [offsetLineStart, c5Args]
  have hole : offsetLineEnd c5Args = 0 := by simp [offsetLineEnd, c5Args]
  have hls : lineStart c5Args = (0, 0) := by
    unfold lineStart
    rw [hh.2.1, hh.2.2, hols]
    norm_num [c5Args]
  have hle : lineEnd c5Args = (100, 0) := by
    unfold lineEnd
    rw [hh.2.1, hh.2.2, hole]
    norm_num [c5Args]
  have h2 : ¬ newLength c5Args < c5Args.thickness := by
    rw [newLength_eq_abs (by rw [hh.1]; norm_num), hh.1, hols, hole,
      show (100 : ℝ) - (0 + 0) = 100 by norm_num,
      abs_of_nonneg (by norm_num : (0 : ℝ) ≤ 100)]
    norm_num [c5Args]
  have hl : labelResult c5Args = ([], false) :=
    labelResult_render_fail rfl rfl rfl rfl
  rw [draw_line_draws (by rw [hh.1]; norm_num) h2, hl, hls, hle]
  simp [headCalls, c5Args]

/-- C5 (amended): the `try/except` protects only the `str(label)`
conversion: when that conversion raises and rendering succeeds, the failure
is swallowed and the placeholder `"?"` is blitted in place of the label. -/
theorem str_failure_placeholder (a : Args) (lv : LabelVal)
    (h1 : lengthOf a ≠ 0) (h2 : ¬ newLength a < a.thickness)
    (h3 : a.label = some lv) (h4 : lv.truthy = true) (h5 : a.font = true)
    (h6 : lv.strResult = none) (h7 : a.renderOk = true) :
    (draw_line a).2 = true ∧
    DrawCall.blit "?" (labelCenter a) ∈ (draw_line a).1 := by
  have hd := draw_line_draws h1 h2
  have hl := labelResult_ok lv h3 h4 h5 h7
  have hstr : labelStr lv = "?" := by simp [labelStr, h6]
  rw [hd, hl, hstr]
  exact ⟨rfl, by simp⟩

/-- Witness for the amended C5: applied to the concrete call `c5wArgs`,
whose label's `str()` raises. -/
theorem str_failure_placeholder_witness :
    (draw_line c5wArgs).2 = true ∧
    DrawCall.blit "?" (labelCenter c5wArgs) ∈ (draw_line c5wArgs).1 := by
  have hh := horiz_eval (a := c5wArgs) (d := 100)
    (by norm_num [c5wArgs]) (by norm_num [c5wArgs]) (by norm_num)
  have hols : offsetLineStart c5wArgs = 0 := by simp [offsetLineStart, c5wArgs]
  have hole : offsetLineEnd c5wArgs = 0 := by simp [offsetLineEnd, c5wArgs]
  refine str_failure_placeholder c5wArgs ⟨true, none⟩
    (by rw [hh.1]; norm_num) ?_ rfl rfl rfl rfl rfl
  rw [newLength_eq_abs (by rw [hh.1]; norm_num), hh.1, hols, hole,
    show (100 : ℝ) - (0 + 0) = 100 by norm_num,
    abs_of_nonneg (by norm_num : (0 : ℝ) ≤ 100)]
  norm_num [c5wArgs]

lemma dist2_arrowHeadP1 (pos : ℝ × ℝ) (θ s : ℝ) (hs : 0 ≤ s) :
    dist2 (arrowHeadP1 pos θ s) pos = s := by
  unfold dist2 arrowHeadP1
  rw [show pos.1 - s * Real.cos (θ - Real.pi / 6) - pos.1 =
      Real.cos (θ - Real.pi / 6) * (-s) by ring,
    show pos.2 - s * Real.sin (θ - Real.pi / 6) - pos.2 =
      Real.sin (θ - Real.pi / 6) * (-s) by ring,
    hypot_mul]
  unfold hypot
  rw [Real.cos_sq_add_sin_sq, Real.sqrt_one, one_mul, abs_neg, abs_of_nonneg hs]

lemma dist2_arrowHeadP2 (pos : ℝ × ℝ) (θ s : ℝ) (hs : 0 ≤ s) :
    dist2 (arrowHeadP2 pos θ s) pos = s := by
  unfold dist2 arrowHeadP2
  rw [show pos.1 - s * Real.cos (θ + Real.pi / 6) - pos.1 =
      Real.cos (θ + Real.pi / 6) * (-s) by ring,
    show pos.2 - s * Real.sin (θ + Real.pi / 6) - pos.2 =
      Real.sin (θ + Real.pi / 6) * (-s) by ring,
    hypot_mul]
  unfold hypot
  rw [Real.cos_sq_add_sin_sq, Real.sqrt_one, one_mul, abs_neg, abs_of_nonneg hs]

lemma cos_angleOf {a : Args} (h : lengthOf a ≠ 0) :
    Real.cos (angleOf a) = unitVx a := by
  have hz : (⟨unitVx a, unitVy a⟩ : ℂ) ≠ 0 := by
    intro h0
    have hre := congrArg Complex.re h0
    have him := congrArg Complex.im h0
    simp only [Complex.zero_re, Complex.zero_im] at hre him
    have hu := unit_sq h
    rw [hre, him] at hu
    norm_num at hu
  have habs : Complex.abs ⟨unitVx a, unitVy a⟩ = 1 := by
    rw [Complex.abs_apply, Complex.normSq_mk,
      show unitVx a * unitVx a + unitVy a * unitVy a =
        unitVx a ^ 2 + unitVy a ^ 2 by ring,
      unit_sq h, Real.sqrt_one]
  unfold angleOf atan2
  rw [Complex.cos_arg hz, habs]
  simp

lemma sin_angleOf {a : Args} (h : lengthOf a ≠ 0) :
    Real.sin (angleOf a) = unitVy a := by
  have habs : Complex.abs ⟨unitVx a, unitVy a⟩ = 1 := by
    rw [Complex.abs_apply, Complex.normSq_mk,
      show unitVx a * unitVx a + unitVy a * unitVy a =
        unitVx a ^ 2 + unitVy a ^ 2 by ring,
      unit_sq h, Real.sqrt_one]
  unfold angleOf atan2
  rw [Complex.sin_arg, habs]
  simp

/-- C9: for every single- or double-arrow call that proceeds to draw, the
end arrow head's apex is `final_point_end = end_pos - offset_end` times the
unit direction (so `end_pos` itself when the offset is zero), the polygon at
the apex is emitted, the angle used is the line's direction (its cosine and
sine are the unit vector), and both base vertices lie at distance
`arrow_size` from the apex, at angles `angle - pi/6` and `angle + pi/6`. -/
theorem arrow_head_placement (a : Args)
    (h1 : lengthOf a ≠ 0) (h2 : ¬ newLength a < a.thickness)
    (h3 : a.arrow_type = ArrowType.SINGLE ∨ a.arrow_type = ArrowType.DOUBLE)
    (h4 : 0 ≤ a.arrow_size) :
    finalPointEnd a =
      (a.end_pos.1 - unitVx a * a.offset_end,
       a.end_pos.2 - unitVy a * a.offset_end) ∧
    DrawCall.polygon a.color
      (arrowHeadPoints (finalPointEnd a) (angleOf a) a.arrow_size) ∈
      (draw_line a).1 ∧
    Real.cos (angleOf a) = unitVx a ∧ Real.sin (angleOf a) = unitVy a ∧
    dist2 (arrowHeadP1 (finalPointEnd a) (angleOf a) a.arrow_size)
      (finalPointEnd a) = a.arrow_size ∧
    dist2 (arrowHeadP2 (finalPointEnd a) (angleOf a) a.arrow_size)
      (finalPointEnd a) = a.arrow_size := by
  refine ⟨rfl, ?_, cos_angleOf h1, sin_angleOf h1,
    dist2_arrowHeadP1 _ _ _ h4, dist2_arrowHeadP2 _ _ _ h4⟩
  rw [draw_line_draws h1 h2]
  have hhead : headCalls a =
      DrawCall.polygon a.color
        (arrowHeadPoints (finalPointEnd a) (angleOf a) a.arrow_size) ::
      (if a.arrow_type = ArrowType.DOUBLE then
        [DrawCall.polygon a.color
          (arrowHeadPoints (finalPointStart a) (angleOf a + Real.pi)
            a.arrow_size)]
      else []) := by
    unfold headCalls
    rw [if_pos h3]
    rfl
  rw [hhead]
  simp

/-- Witness for C9: the single-arrow call `c9wArgs` places its arrow head at
the apex `(100, 0)` with both base vertices at distance `10`. -/
theorem arrow_head_placement_witness :
    finalPointEnd c9wArgs =
      (c9wArgs.end_pos.1 - unitVx c9wArgs * c9wArgs.offset_end,
       c9wArgs.end_pos.2 - unitVy c9wArgs * c9wArgs.offset_end) ∧
    DrawCall.polygon c9wArgs.color
      (arrowHeadPoints (finalPointEnd c9wArgs) (angleOf c9wArgs)
        c9wArgs.arrow_size) ∈ (draw_line c9wArgs).1 ∧
    Real.cos (angleOf c9wArgs) = unitVx c9wArgs ∧
    Real.sin (angleOf c9wArgs) = unitVy c9wArgs ∧
    dist2 (arrowHeadP1 (finalPointEnd c9wArgs) (angleOf c9wArgs)
      c9wArgs.arrow_size) (finalPointEnd c9wArgs) = c9wArgs.arrow_size ∧
    dist2 (arrowHeadP2 (finalPointEnd c9wArgs) (angleOf c9wArgs)
      c9wArgs.arrow_size) (finalPointEnd c9wArgs) = c9wArgs.arrow_size := by
  have hh := horiz_eval (a := c9wArgs) (d := 100)
    (by norm_num [c9wArgs]) (by norm_num [c9wArgs]) (by norm_num)
  have hols : offsetLineStart c9wArgs = 0 := by simp [offsetLineStart, c9wArgs]
  have hole : offsetLineEnd c9wArgs = 8 := by norm_num [offsetLineEnd, c9wArgs]
  refine arrow_head_placement c9wArgs (by rw [hh.1]; norm_num) ?_
    (Or.inl rfl) (by norm_num [c9wArgs])
  rw [newLength_eq_abs (by rw [hh.1]; norm_num), hh.1, hols, hole,
    show (100 : ℝ) - (0 + 8) = 92 by norm_num,
    abs_of_nonneg (by norm_num : (0 : ℝ) ≤ 92)]
  norm_num [c9wArgs]

lemma demo_ols (p q : ℝ × ℝ) (lab : String) :
    offsetLineStart (demoEdgeArgs p q lab) = 15 := by
  simp [offsetLineStart, demoEdgeArgs]

lemma demo_ole (p q : ℝ × ℝ) (lab : String) :
    offsetLineEnd (demoEdgeArgs p q lab) = 147 / 5 := by
  norm_num [offsetLineEnd, demoEdgeArgs]

lemma demo_edge_skip_eq {p q : ℝ × ℝ} {lab : String}
    (h : lengthOf (demoEdgeArgs p q lab) ≠ 0)
    (hlt : |lengthOf (demoEdgeArgs p q lab) - 222 / 5| < 6) :
    draw_line (demoEdgeArgs p q lab) = ([], true) := by
  refine draw_line_skip h ?_
  rw [newLength_eq_abs h, demo_ols, demo_ole,
    show (15 : ℝ) + 147 / 5 = 222 / 5 by norm_num]
  exact hlt

lemma demo_edge_draw_eq (p q : ℝ × ℝ) (lab : String)
    (h : lengthOf (demoEdgeArgs p q lab) ≠ 0)
    (hge : 6 ≤ |lengthOf (demoEdgeArgs p q lab) - 222 / 5|) :
    draw_line (demoEdgeArgs p q lab) = (demoEdgeCalls p q lab, true) := by
  have h2 : ¬ newLength (demoEdgeArgs p q lab) < (demoEdgeArgs p q lab).thickness := by
    rw [newLength_eq_abs h, demo_ols, demo_ole,
      show (15 : ℝ) + 147 / 5 = 222 / 5 by norm_num]
    exact not_lt.2 hge
  rw [draw_line_draws h h2,
    labelResult_ok ⟨true, some lab⟩ rfl rfl rfl rfl]
  rfl

lemma countLines_cons_line (c : Color) (p q : ℝ × ℝ) (t : ℝ) (l : List DrawCall) :
    countLines (DrawCall.line c p q t :: l) = countLines l + 1 := by
  simp [countLines, List.filter_cons, isLineCall]

lemma countLines_blit (s : String) (z : ℤ × ℤ) :
    countLines [DrawCall.blit s z] = 0 := by
  simp [countLines, isLineCall]

lemma countLines_demoCircles (w h : ℕ) : countLines (demoCircles w h) = 0 := by
  simp [demoCircles, draw_circle, countLines, isLineCall]

lemma countLines_nil : countLines [] = 0 := rfl

lemma countLines_demoEdgeCalls (p q : ℝ × ℝ) (lab : String) :
    countLines (demoEdgeCalls p q lab) = 1 := by
  unfold demoEdgeCalls
  rw [countLines_cons_line, countLines_append, countLines_headCalls,
    countLines_blit]

lemma andThen_eval (l1 l2 : List DrawCall) (b : Bool) :
    andThen (l1, true) (l2, b) = (l1 ++ l2, b) := by
  simp [andThen]

/-- C7 counterexample: after a resize to a `120 × 60` window, a demo
iteration still completes without error, but only one of the three edges is
drawn — the stems of edges `1-2` and `2-3` come out shorter than the
thickness and are silently skipped. -/
theorem demo_not_three_edges_cex :
    (demoFrame 120 60).2 = true ∧ countLines (demoFrame 120 60).1 = 1 := by
  have hp1 : demoPos1 120 60 = ((30 : ℝ), (15 : ℝ)) := by
    norm_num [demoPos1, Prod.ext_iff]
  have hp2 : demoPos2 120 60 = ((60 : ℝ), (45 : ℝ)) := by
    norm_num [demoPos2, Prod.ext_iff]
  have hp3 : demoPos3 120 60 = ((90 : ℝ), (15 : ℝ)) := by
    norm_num [demoPos3, Prod.ext_iff]
  have hL12 : lengthOf (demoEdgeArgs ((30 : ℝ), (15 : ℝ)) ((60 : ℝ), (45 : ℝ)) "1-2") =
      Real.sqrt 1800 := by
    simp only [lengthOf, dxOf, dyOf, hypot, demoEdgeArgs]
    norm_num
  have hL23 : lengthOf (demoEdgeArgs ((60 : ℝ), (45 : ℝ)) ((90 : ℝ), (15 : ℝ)) "2-3") =
      Real.sqrt 1800 := by
    simp only [lengthOf, dxOf, dyOf, hypot, demoEdgeArgs]
    norm_num
  have hL31 : lengthOf (demoEdgeArgs ((90 : ℝ), (15 : ℝ)) ((30 : ℝ), (15 : ℝ)) "3-1") =
      60 := by
    simp only [lengthOf, dxOf, dyOf, demoEdgeArgs]
    rw [show (30 : ℝ) - 90 = -60 by norm_num, show (15 : ℝ) - 15 = 0 by norm_num,
      hypot_x_zero, abs_neg, abs_of_nonneg (by norm_num : (0 : ℝ) ≤ 60)]
  have hlb : (38.4 : ℝ) < Real.sqrt 1800 := by
    rw [Real.lt_sqrt (by norm_num)]
    norm_num
  have hub : Real.sqrt 1800 < 50.4 := by
    rw [Real.sqrt_lt' (by norm_num)]
    norm_num
  have hne : Real.sqrt 1800 ≠ 0 := (Real.sqrt_pos.2 (by norm_num)).ne'
  have hskip12 : draw_line (demoEdgeArgs ((30 : ℝ), (15 : ℝ)) ((60 : ℝ), (45 : ℝ)) "1-2") =
      ([], true) := by
    refine demo_edge_skip_eq (by rw [hL12]; exact hne) ?_
    rw [hL12, abs_lt]
    constructor <;> linarith
  have hskip23 : draw_line (demoEdgeArgs ((60 : ℝ), (45 : ℝ)) ((90 : ℝ), (15 : ℝ)) "2-3") =
      ([], true) := by
    refine demo_edge_skip_eq (by rw [hL23]; exact hne) ?_
    rw [hL23, abs_lt]
    constructor <;> linarith
  have hdraw31 := demo_edge_draw_eq
    ((90 : ℝ), (15 : ℝ)) ((30 : ℝ), (15 : ℝ)) "3-1"
    (by rw [hL31]; norm_num)
    (by rw [hL31, show (60 : ℝ) - 222 / 5 = 78 / 5 by norm_num,
          abs_of_nonneg (by norm_num : (0 : ℝ) ≤ 78 / 5)]
        norm_num)
  have hframe : demoFrame 120 60 =
      (demoCircles 120 60 ++
        ([] ++ ([] ++ demoEdgeCalls ((90 : ℝ), (15 : ℝ)) ((30 : ℝ), (15 : ℝ)) "3-1")),
       true) := by
    unfold demoFrame
    rw [hp1, hp2, hp3, hskip12, hskip23, hdraw31, andThen_eval, andThen_eval,
      andThen_eval]
  rw [hframe]
  refine ⟨rfl, ?_⟩
  simp only [countLines_append, countLines_demoCircles, countLines_nil,
    countLines_demoEdgeCalls]

/-- C7 (amended, spec-modelled `draw_circle`): on the initial `400 × 300`
window, one demo iteration draws the three nodes as circles and all three
edges, and completes without raising; at other window sizes edges whose
adjusted stem is shorter than the thickness are silently skipped instead. -/
theorem demo_initial_frame_draws_all :
    (demoFrame 400 300).2 = true ∧
    countLines (demoFrame 400 300).1 = 3 ∧
    hasCircleAt (demoFrame 400 300).1 (demoPos1 400 300) ∧
    hasCircleAt (demoFrame 400 300).1 (demoPos2 400 300) ∧
    hasCircleAt (demoFrame 400 300).1 (demoPos3 400 300) := by
  have hp1 : demoPos1 400 300 = ((100 : ℝ), (75 : ℝ)) := by
    norm_num [demoPos1, Prod.ext_iff]
  have hp2 : demoPos2 400 300 = ((200 : ℝ), (225 : ℝ)) := by
    norm_num [demoPos2, Prod.ext_iff]
  have hp3 : demoPos3 400 300 = ((300 : ℝ), (75 : ℝ)) := by
    norm_num [demoPos3, Prod.ext_iff]
  have hL12 : lengthOf (demoEdgeArgs ((100 : ℝ), (75 : ℝ)) ((200 : ℝ), (225 : ℝ)) "1-2") =
      Real.sqrt 32500 := by
    simp only [lengthOf, dxOf, dyOf, hypot, demoEdgeArgs]
    norm_num
  have hL23 : lengthOf (demoEdgeArgs ((200 : ℝ), (225 : ℝ)) ((300 : ℝ), (75 : ℝ)) "2-3") =
      Real.sqrt 32500 := by
    simp only [lengthOf, dxOf, dyOf, hypot, demoEdgeArgs]
    norm_num
  have hL31 : lengthOf (demoEdgeArgs ((300 : ℝ), (75 : ℝ)) ((100 : ℝ), (75 : ℝ)) "3-1") =
      200 := by
    simp only [lengthOf, dxOf, dyOf, demoEdgeArgs]
    rw [show (100 : ℝ) - 300 = -200 by norm_num, show (75 : ℝ) - 75 = 0 by norm_num,
      hypot_x_zero, abs_neg, abs_of_nonneg (by norm_num : (0 : ℝ) ≤ 200)]
  have hlb : (50.4 : ℝ) ≤ Real.sqrt 32500 :=
    Real.le_sqrt_of_sq_le (by norm_num)
  have hne : Real.sqrt 32500 ≠ 0 := (Real.sqrt_pos.2 (by norm_num)).ne'
  have hge : 6 ≤ |Real.sqrt 32500 - 222 / 5| := by
    rw [abs_of_nonneg (by linarith)]
    linarith
  have hdraw12 := demo_edge_draw_eq
    ((100 : ℝ), (75 : ℝ)) ((200 : ℝ), (225 : ℝ)) "1-2"
    (by rw [hL12]; exact hne) (by rw [hL12]; exact hge)
  have hdraw23 := demo_edge_draw_eq
    ((200 : ℝ), (225 : ℝ)) ((300 : ℝ), (75 : ℝ)) "2-3"
    (by rw [hL23]; exact hne) (by rw [hL23]; exact hge)
  have hdraw31 := demo_edge_draw_eq
    ((300 : ℝ), (75 : ℝ)) ((100 : ℝ), (75 : ℝ)) "3-1"
    (by rw [hL31]; norm_num)
    (by rw [hL31, show (200 : ℝ) - 222 / 5 = 778 / 5 by norm_num,
          abs_of_nonneg (by norm_num : (0 : ℝ) ≤ 778 / 5)]
        norm_num)
  have hframe : demoFrame 400 300 =
      (demoCircles 400 300 ++
        (demoEdgeCalls ((100 : ℝ), (75 : ℝ)) ((200 : ℝ), (225 : ℝ)) "1-2" ++
          (demoEdgeCalls ((200 : ℝ), (225 : ℝ)) ((300 : ℝ), (75 : ℝ)) "2-3" ++
            demoEdgeCalls ((300 : ℝ), (75 : ℝ)) ((100 : ℝ), (75 : ℝ)) "3-1")),
       true) := by
    unfold demoFrame
    rw [hp1, hp2, hp3, hdraw12, hdraw23, hdraw31, andThen_eval, andThen_eval,
      andThen_eval]
  refine ⟨by rw [hframe], ?_, ?_, ?_, ?_⟩
  · rw [hframe]
    simp only [countLines_append, countLines_demoCircles, countLines_nil,
      countLines_demoEdgeCalls]
  · refine ⟨COULEUR_CERCLE_EXTERIEUR, 15, ?_⟩
    rw [hframe]
    simp [demoCircles, draw_circle]
  · refine ⟨COULEUR_CERCLE_EXTERIEUR, 15, ?_⟩
    rw [hframe]
    simp [demoCircles, draw_circle]
  · refine ⟨COULEUR_CERCLE_EXTERIEUR, 15, ?_⟩
    rw [hframe]
    simp [demoCircles, draw_circle]

end DrawGraph
